import Mathlib

/-!
Shallow embedding of the database-side core of the memo-0 todo application:
the stored procedures of `supabase/transaction_schema_fixed.sql`,
`supabase/search_pagination_working.sql` and the provisioning triggers of
`supabase/complete_setup.sql`, modelled as pure functions over an explicit
list-of-rows state.  UUIDs are modelled as `Nat`, timestamps as `Int`
(seconds), SQL `FLOAT` ranks as `ℚ`.
-/

namespace Memo

/-- A row of the `todos` table (`complete_setup.sql` plus the `version` /
`updated_at` columns added by `transaction_schema_fixed.sql`). -/
structure Todo where
  id : Nat
  user_id : Nat
  title : String
  is_complete : Bool
  category_id : Option Nat
  created_at : Int
  updated_at : Int
  version : Nat
deriving DecidableEq, Repr

/-- A row of the `categories` table (`complete_setup.sql`). -/
structure Category where
  id : Nat
  user_id : Nat
  name : String
  color : String
deriving DecidableEq, Repr

/-- The `increment_version` trigger function of
`transaction_schema_fixed.sql` (lines 15-22): `NEW.version = OLD.version + 1;
NEW.updated_at = now()`.  `old` is the row before the update, `new` the row
as the caller's UPDATE statement would store it. -/
def increment_version (now : Int) (old new : Todo) : Todo :=
  { new with version := old.version + 1, updated_at := now }

/-- One UPDATE of a single `todos` row: the caller's field changes `f`
filtered through the BEFORE UPDATE trigger `update_todo_version`
(`transaction_schema_fixed.sql` lines 24-28), which runs `increment_version`.
The trigger is unbypassable: it applies whatever `f` did to `version` or
`updated_at`. -/
def applyUpdate (now : Int) (f : Todo → Todo) (t : Todo) : Todo :=
  increment_version now t (f t)

/-- `UPDATE todos SET ... WHERE p` over the whole table: every row satisfying
`p` goes through the trigger-wrapped update; returns the new table and the
`ROW_COUNT` diagnostic. -/
def updateWhere (now : Int) (p : Todo → Bool) (f : Todo → Todo) (s : List Todo) :
    List Todo × Nat :=
  (s.map (fun t => if p t then applyUpdate now f t else t), s.countP p)

/-- PostgreSQL `array_length(a, 1)`: `NULL` (`none`) on an empty array. -/
def arrayLength (l : List Nat) : Option Nat :=
  if l.isEmpty then none else some l.length

/-- The affected-count check `IF v_count != array_length(p_todo_ids, 1)` of
the bulk functions.  SQL three-valued logic: when `array_length` is `NULL`
(empty array) the inequality is `NULL`, which does not fire the branch. -/
def countMismatch (ids : List Nat) (cnt : Nat) : Bool :=
  match arrayLength ids with
  | none => false
  | some n => cnt != n

/-- Result row shape shared by the bulk functions of
`transaction_schema_fixed.sql`: `(success, updated_count / deleted_count,
error_message)`. -/
structure BulkResult where
  success : Bool
  count : Nat
  error_message : Option String
deriving DecidableEq, Repr

/-- Result row of `update_todo_with_version`. -/
structure VersionResult where
  success : Bool
  new_version : Nat
  error_message : Option String
deriving DecidableEq, Repr

def bulkUpdateMsg (expected got : Nat) : String :=
  s!"Some todos could not be updated. Expected: {expected}, Updated: {got}"

def bulkDeleteMsg (expected got : Nat) : String :=
  s!"Some todos could not be deleted. Expected: {expected}, Deleted: {got}"

def bulkChangeMsg : String := "Some todos could not be updated"

def categoryDeniedMsg : String := "Category does not exist or access denied"

def notFoundMsg : String := "Todo not found or access denied"

def versionConflictMsg : String := "Version conflict: Todo was modified by another process"

/-- The per-id loop body of `bulk_update_todos` (lines 52-63): one
conditional UPDATE per id, accumulating `ROW_COUNT`s. -/
def bulkUpdateLoop (now : Int) (u : Nat) (b : Bool) :
    List Nat → List Todo × Nat → List Todo × Nat
  | [], acc => acc
  | i :: rest, (s, c) =>
      let r := updateWhere now (fun t => t.id == i && t.user_id == u)
        (fun t => { t with is_complete := b }) s
      bulkUpdateLoop now u b rest (r.1, c + r.2)

/-- The accumulated `ROW_COUNT` of the `bulk_update_todos` loop. -/
def bulkUpdateCount (s : List Todo) (now : Int) (u : Nat) (ids : List Nat)
    (b : Bool) : Nat :=
  (bulkUpdateLoop now u b ids (s, 0)).2

/-- The `ROW_COUNT` of a set-based statement over
`WHERE id = ANY(ids) AND user_id = u`: the number of the caller's rows
named by `ids`. -/
def bulkAffectedCount (s : List Todo) (u : Nat) (ids : List Nat) : Nat :=
  s.countP (fun t => ids.contains t.id && t.user_id == u)

/-- `bulk_update_todos` (`transaction_schema_fixed.sql` lines 35-79):
iterate over the ids updating each matching row, then raise (and hence roll
back the whole block, returning `(false, 0, SQLERRM)`) when the accumulated
count mismatches the id-array length. -/
def bulk_update_todos (s : List Todo) (now : Int) (u : Nat) (ids : List Nat)
    (b : Bool) : List Todo × BulkResult :=
  let r := bulkUpdateLoop now u b ids (s, 0)
  if countMismatch ids r.2 then
    (s, ⟨false, 0, some (bulkUpdateMsg ids.length r.2)⟩)
  else
    (r.1, ⟨true, r.2, none⟩)

/-- `bulk_update_todos_efficient` (`transaction_schema_fixed.sql` lines
255-287): one set-based UPDATE matching all ids at once, then the same
mismatch check. -/
def bulk_update_todos_efficient (s : List Todo) (now : Int) (u : Nat)
    (ids : List Nat) (b : Bool) : List Todo × BulkResult :=
  let r := updateWhere now (fun t => ids.contains t.id && t.user_id == u)
    (fun t => { t with is_complete := b }) s
  if countMismatch ids r.2 then
    (s, ⟨false, 0, some (bulkUpdateMsg ids.length r.2)⟩)
  else
    (r.1, ⟨true, r.2, none⟩)

/-- `bulk_change_category` (`transaction_schema_fixed.sql` lines 84-127):
validate a non-NULL target category (owned by the caller), then one
set-based UPDATE of `category_id`, then the mismatch check. -/
def bulk_change_category (s : List Todo) (cats : List Category) (now : Int)
    (u : Nat) (ids : List Nat) (cat : Option Nat) : List Todo × BulkResult :=
  match cat with
  | some c =>
      if cats.any (fun k => k.id == c && k.user_id == u) then
        let r := updateWhere now (fun t => ids.contains t.id && t.user_id == u)
          (fun t => { t with category_id := cat }) s
        if countMismatch ids r.2 then (s, ⟨false, 0, some bulkChangeMsg⟩)
        else (r.1, ⟨true, r.2, none⟩)
      else (s, ⟨false, 0, some categoryDeniedMsg⟩)
  | none =>
      let r := updateWhere now (fun t => ids.contains t.id && t.user_id == u)
        (fun t => { t with category_id := none }) s
      if countMismatch ids r.2 then (s, ⟨false, 0, some bulkChangeMsg⟩)
      else (r.1, ⟨true, r.2, none⟩)

/-- `bulk_delete_todos` (`transaction_schema_fixed.sql` lines 181-211):
`DELETE ... WHERE id = ANY(ids) AND user_id = u`, then the mismatch check
(failure rolls the deletion back). -/
def bulk_delete_todos (s : List Todo) (u : Nat) (ids : List Nat) :
    List Todo × BulkResult :=
  let cnt := bulkAffectedCount s u ids
  let s' := s.filter (fun t => !(ids.contains t.id && t.user_id == u))
  if countMismatch ids cnt then
    (s, ⟨false, 0, some (bulkDeleteMsg ids.length cnt)⟩)
  else
    (s', ⟨true, cnt, none⟩)

/-- `update_todo_with_version` (`transaction_schema_fixed.sql` lines
132-176): conditional UPDATE guarded by `version = expected`; on zero rows
matched, re-query existence by id and owner to pick between the not-found
and version-conflict errors; on success `RETURNING version` observes the
post-trigger value `expected + 1`. -/
def update_todo_with_version (s : List Todo) (now : Int) (u tid : Nat)
    (title : String) (b : Bool) (cat : Option Nat) (expected : Nat) :
    List Todo × VersionResult :=
  let p : Todo → Bool := fun t => t.id == tid && t.user_id == u && t.version == expected
  let r := updateWhere now p
    (fun t => { t with title := title, is_complete := b, category_id := cat }) s
  if r.2 = 0 then
    if s.any (fun t => t.id == tid && t.user_id == u) then
      (s, ⟨false, 0, some versionConflictMsg⟩)
    else
      (s, ⟨false, 0, some notFoundMsg⟩)
  else
    (r.1, ⟨true, expected + 1, none⟩)

/-! ### Search & pagination engine (`search_pagination_working.sql`)

String matching is modelled at the character-list level.  PostgreSQL's
`LOWER` and the alphanumeric word classification of `pg_trgm` are modelled
by Lean's ASCII `Char.toLower` / `Char.isAlphanum`; all concrete inputs in
this development are ASCII, where the two agree. -/

/-- SQL `TRIM(x)`: strip space characters from both ends. -/
def trimSpaces (s : String) : String :=
  ⟨((s.data.dropWhile (· == ' ')).reverse.dropWhile (· == ' ')).reverse⟩

/-- PostgreSQL `LOWER`, character by character (ASCII case mapping). -/
def lowerStr (s : String) : String := ⟨s.data.map Char.toLower⟩

/-- The query normalisation `LOWER(TRIM(COALESCE(q, '')))` shared by all
search functions. -/
def normalizeQuery (q : Option String) : String :=
  lowerStr (trimSpaces (q.getD ""))

/-- SQL `LIKE` pattern matching: `%` matches any sequence, `_` any single
character, backslash escapes the next pattern character; everything else is
literal.  (A pattern ending in a bare backslash is treated as a literal
backslash.) -/
def likeMatch : List Char → List Char → Bool
  | [], s => s.isEmpty
  | c :: p, s =>
      if c = '%' then
        s.tails.any (fun s2 => likeMatch p s2)
      else if c = '\\' then
        (match p, s with
         | e :: p', d :: s' => e == d && likeMatch p' s'
         | _ :: _, [] => false
         | [], [] => false
         | [], d :: s' => d == '\\' && s'.isEmpty)
      else if c = '_' then
        (match s with
         | [] => false
         | _ :: s' => likeMatch p s')
      else
        (match s with
         | [] => false
         | d :: s' => c == d && likeMatch p s')

/-- `a LIKE pat` on strings. -/
def likeStr (pat s : String) : Bool := likeMatch pat.data s.data

/-- Split a string into its maximal alphanumeric words, as `pg_trgm` does
before extracting trigrams. -/
def splitWordsAux (c : Char) (acc : List (List Char)) : List (List Char) :=
  if c.isAlphanum then
    match acc with
    | g :: gs => (c :: g) :: gs
    | [] => [[c]]
  else
    match acc with
    | [] :: _ => acc
    | _ => [] :: acc

def splitWords (l : List Char) : List (List Char) :=
  (l.foldr splitWordsAux []).filter (· ≠ [])

/-- All length-3 windows of a character list. -/
def windows3 : List Char → List (List Char)
  | a :: b :: c :: rest => [a, b, c] :: windows3 (b :: c :: rest)
  | _ => []

/-- The deduplicated trigram set of a string under `pg_trgm`'s rules: each
word is padded with two leading and one trailing blank, and all 3-windows
are collected. -/
def trigramsOf (l : List Char) : List (List Char) :=
  ((splitWords l).flatMap (fun w => windows3 (' ' :: ' ' :: (w ++ [' '])))).dedup

/-- `pg_trgm`'s `similarity(a, b) = |A ∩ B| / (|A| + |B| - |A ∩ B|)` over
the trigram sets, 0 when either set is empty. -/
def similarity (a b : String) : ℚ :=
  let ta := trigramsOf a.data
  let tb := trigramsOf b.data
  let common := (ta.filter (fun x => tb.contains x)).length
  if ta.length + tb.length - common = 0 then 0
  else mkRat (common : Int) (ta.length + tb.length - common)

/-- The front-anchored tier test `LOWER(title) LIKE v || '%'` of
`search_todos`. -/
def startTierB (v title : String) : Bool := likeStr (v ++ "%") (lowerStr title)

/-- The substring tier test `LOWER(title) LIKE '%' || v || '%'` of
`search_todos`. -/
def subTierB (v title : String) : Bool := likeStr ("%" ++ v ++ "%") (lowerStr title)

/-- The rank CASE expression of `search_todos`
(`search_pagination_working.sql` lines 71-85): exact match 1.0, LIKE tier
`v || '%'` 0.8, LIKE tier `'%' || v || '%'` 0.6, else the trigram
similarity; 0 for the empty normalised query. -/
def searchRank (v : String) (title : String) : ℚ :=
  if v = "" then 0
  else if lowerStr title = v then 1
  else if startTierB v title then mkRat 4 5
  else if subTierB v title then mkRat 3 5
  else similarity (lowerStr title) v

/-- The shared WHERE filter on the search term (lines 89-93): empty query
matches everything, otherwise LIKE-substring or trigram similarity above
the 0.2 threshold. -/
def searchMatch (v : String) (t : Todo) : Bool :=
  v == "" || subTierB v t.title ||
    decide (similarity (lowerStr t.title) v > mkRat 1 5)

/-- The optional category filter `(p_category_id IS NULL OR t.category_id =
p_category_id)`. -/
def catFilterOk (catf : Option Nat) (t : Todo) : Bool :=
  match catf with
  | none => true
  | some c => t.category_id == some c

/-- `LEFT JOIN categories c ON t.category_id = c.id`, projected to `c.name`
(categories have unique ids, so the join is a lookup). -/
def categoryNameOf (cats : List Category) (t : Todo) : Option String :=
  (cats.find? (fun c => t.category_id == some c.id)).map Category.name

def categoryColorOf (cats : List Category) (t : Todo) : Option String :=
  (cats.find? (fun c => t.category_id == some c.id)).map Category.color

/-- A result row of `search_todos`. -/
structure SearchRow where
  id : Nat
  title : String
  is_complete : Bool
  category_id : Option Nat
  created_at : Int
  version : Nat
  category_name : Option String
  category_color : Option String
  rank : ℚ
deriving DecidableEq, Repr

def searchRowOf (cats : List Category) (v : String) (t : Todo) : SearchRow :=
  ⟨t.id, t.title, t.is_complete, t.category_id, t.created_at, t.version,
    categoryNameOf cats t, categoryColorOf cats t, searchRank v t.title⟩

/-- `ORDER BY rank DESC, created_at DESC` as a total preorder on rows. -/
def searchLe (a b : SearchRow) : Prop :=
  b.rank < a.rank ∨ (a.rank = b.rank ∧ b.created_at ≤ a.created_at)

instance : DecidableRel searchLe := fun a b =>
  inferInstanceAs (Decidable (b.rank < a.rank ∨ (a.rank = b.rank ∧ b.created_at ≤ a.created_at)))

instance : IsTotal SearchRow searchLe where
  total a b := by
    rcases lt_trichotomy a.rank b.rank with h | h | h
    · exact Or.inr (Or.inl h)
    · rcases le_total a.created_at b.created_at with h2 | h2
      · exact Or.inr (Or.inr ⟨h.symm, h2⟩)
      · exact Or.inl (Or.inr ⟨h, h2⟩)
    · exact Or.inl (Or.inl h)

instance : IsTrans SearchRow searchLe where
  trans a b c hab hbc := by
    rcases hab with h1 | ⟨h1, h1'⟩ <;> rcases hbc with h2 | ⟨h2, h2'⟩
    · exact Or.inl (h2.trans h1)
    · exact Or.inl (h2 ▸ h1)
    · exact Or.inl (h1 ▸ h2)
    · exact Or.inr ⟨h1.trans h2, h2'.trans h1'⟩

/-- `search_todos` (`search_pagination_working.sql` lines 37-111): filter
the caller's rows by the search/category predicates, rank them, order by
rank descending then `created_at` descending, and apply OFFSET/LIMIT. -/
def search_todos (s : List Todo) (cats : List Category) (u : Nat)
    (q : Option String) (catf : Option Nat) (limit offset : Nat) :
    List SearchRow :=
  let v := normalizeQuery q
  let rows := s.filter (fun t => t.user_id == u && searchMatch v t && catFilterOk catf t)
  ((List.insertionSort searchLe (rows.map (searchRowOf cats v))).drop offset).take limit

/-- A result row of `get_todos_cursor` (without the per-row `has_more`
column, which is the same boolean on every row and is returned once in
`CursorPage`). -/
structure CursorRow where
  id : Nat
  title : String
  is_complete : Bool
  category_id : Option Nat
  created_at : Int
  version : Nat
  category_name : Option String
  category_color : Option String
deriving DecidableEq, Repr

def cursorRowOf (cats : List Category) (t : Todo) : CursorRow :=
  ⟨t.id, t.title, t.is_complete, t.category_id, t.created_at, t.version,
    categoryNameOf cats t, categoryColorOf cats t⟩

structure CursorPage where
  rows : List CursorRow
  has_more : Bool
deriving DecidableEq, Repr

/-- `ORDER BY created_at DESC` on cursor rows. -/
def cursorLe (a b : CursorRow) : Prop := b.created_at ≤ a.created_at

instance : DecidableRel cursorLe := fun a b =>
  inferInstanceAs (Decidable (b.created_at ≤ a.created_at))

instance : IsTotal CursorRow cursorLe := ⟨fun a b => (le_total b.created_at a.created_at).imp id id⟩

instance : IsTrans CursorRow cursorLe := ⟨fun _ _ _ hab hbc => le_trans hbc hab⟩

/-- The `INTERVAL '1 day'` added to `NOW()` for the null-cursor sentinel,
in seconds. -/
def oneDay : Int := 86400

/-- The WHERE clause of `get_todos_cursor`'s CTE (lines 158-165): owner,
strict cursor bound on `created_at`, search term, category filter. -/
def cursorMatches (s : List Todo) (u : Nat) (cur : Int) (v : String)
    (catf : Option Nat) : List Todo :=
  s.filter (fun t =>
    t.user_id == u && decide (t.created_at < cur) && searchMatch v t && catFilterOk catf t)

/-- `get_todos_cursor` (`search_pagination_working.sql` lines 116-178):
null cursor becomes the sentinel `now + oneDay`; rows strictly before the
cursor are ordered by `created_at` descending, `limit + 1` are fetched,
`has_more` says whether the extra row existed, and the page is truncated to
`limit`. -/
def get_todos_cursor (s : List Todo) (cats : List Category) (u : Nat)
    (cursor : Option Int) (now : Int) (limit : Nat) (q : Option String)
    (catf : Option Nat) : CursorPage :=
  let v := normalizeQuery q
  let cur := cursor.getD (now + oneDay)
  let sorted := List.insertionSort cursorLe ((cursorMatches s u cur v catf).map (cursorRowOf cats))
  let fetched := sorted.take (limit + 1)
  ⟨fetched.take limit, decide (fetched.length > limit)⟩

/-- The suggestion CASE expression of `get_search_suggestions` (lines
202-206): titles longer than 50 characters are cut to their first 47
characters plus `"..."`. -/
def truncTitle (title : String) : String :=
  if title.length > 50 then title.take 47 ++ "..." else title

/-- `ORDER BY count DESC, suggestion ASC` on suggestion pairs. -/
def suggLe (a b : String × Nat) : Prop :=
  b.2 < a.2 ∨ (a.2 = b.2 ∧ a.1 ≤ b.1)

instance : DecidableRel suggLe := fun a b =>
  inferInstanceAs (Decidable (b.2 < a.2 ∨ (a.2 = b.2 ∧ a.1 ≤ b.1)))

instance : IsTotal (String × Nat) suggLe where
  total a b := by
    rcases lt_trichotomy a.2 b.2 with h | h | h
    · rcases le_total a.1 b.1 with h2 | h2
      · exact Or.inr (Or.inl h)
      · exact Or.inr (Or.inl h)
    · rcases le_total a.1 b.1 with h2 | h2
      · exact Or.inl (Or.inr ⟨h, h2⟩)
      · exact Or.inr (Or.inr ⟨h.symm, h2⟩)
    · exact Or.inl (Or.inl h)

instance : IsTrans (String × Nat) suggLe where
  trans a b c hab hbc := by
    rcases hab with h1 | ⟨h1, h1'⟩ <;> rcases hbc with h2 | ⟨h2, h2'⟩
    · exact Or.inl (h2.trans h1)
    · exact Or.inl (h2 ▸ h1)
    · exact Or.inl (h1 ▸ h2)
    · exact Or.inr ⟨h1.trans h2, h1'.trans h2'⟩

/-- The grouped column of `get_search_suggestions`: the truncated titles of
the caller's todos whose lowercased title LIKE-matches `v || '%'`. -/
def suggestTitles (s : List Todo) (u : Nat) (v : String) : List String :=
  (s.filter (fun t =>
    t.user_id == u && likeStr (v ++ "%") (lowerStr t.title))).map (fun t => truncTitle t.title)

/-- `get_search_suggestions` (`search_pagination_working.sql` lines
183-220): empty normalised query returns immediately; otherwise the
caller's LIKE-prefix-matched titles are truncated, grouped with counts,
ordered by count descending then suggestion ascending, and limited. -/
def get_search_suggestions (s : List Todo) (u : Nat) (q : Option String)
    (limit : Nat) : List (String × Nat) :=
  let v := normalizeQuery q
  if v = "" then []
  else
    let titles := suggestTitles s u v
    let groups := titles.dedup.map (fun g => (g, titles.count g))
    (List.insertionSort suggLe groups).take limit

/-! ### New-user provisioning (`complete_setup.sql`) -/

/-- The provisioning-relevant storage: `profiles` (as the list of user ids)
and `categories`. -/
structure ProvisionState where
  profiles : List Nat
  categories : List Category
deriving DecidableEq, Repr

/-- The four starter categories inserted by `create_default_categories`
(`complete_setup.sql` lines 131-143).  Category ids are server-generated
UUIDs, irrelevant to the claims, modelled as 0. -/
def defaultCategoryList (u : Nat) : List Category :=
  [⟨0, u, "仕事", "#EF4444"⟩, ⟨0, u, "個人", "#10B981"⟩,
   ⟨0, u, "勉強", "#8B5CF6"⟩, ⟨0, u, "買い物", "#F59E0B"⟩]

/-- One `INSERT ... ON CONFLICT DO NOTHING` into `categories`, whose
conflict target is the `UNIQUE(user_id, name)` constraint. -/
def insertCategory (cats : List Category) (c : Category) : List Category :=
  if cats.any (fun k => k.user_id == c.user_id && k.name == c.name) then cats
  else cats ++ [c]

/-- `create_default_categories` (`complete_setup.sql` lines 131-143): the
four-row insert, row by row, each skipping on conflict. -/
def create_default_categories (cats : List Category) (u : Nat) : List Category :=
  (defaultCategoryList u).foldl insertCategory cats

/-- The new-user provisioning chain: `create_profile_for_user` inserts the
profile `ON CONFLICT DO NOTHING`; only when a profile row is actually
inserted does the `AFTER INSERT` trigger `create_user_default_categories`
fire `create_default_categories` (`complete_setup.sql` lines 114-149). -/
def provisionUser (st : ProvisionState) (u : Nat) : ProvisionState :=
  if st.profiles.contains u then st
  else ⟨st.profiles ++ [u], create_default_categories st.categories u⟩

/-! ### Helper lemmas -/

lemma countMismatch_of_ne {ids : List Nat} {cnt : Nat} (hne : ids ≠ [])
    (h : cnt ≠ ids.length) : countMismatch ids cnt = true := by
  unfold countMismatch arrayLength
  cases ids with
  | nil => exact absurd rfl hne
  | cons i l => simpa using h

lemma bulkAffectedCount_nil (s : List Todo) (u : Nat) :
    bulkAffectedCount s u [] = 0 := by
  unfold bulkAffectedCount
  apply List.countP_eq_zero.mpr
  intro t _
  simp

/-- Three demonstration rows: todos A and C owned by user 5, todo B owned
by user 6. -/
def demoTodos : List Todo :=
  [⟨1, 5, "A", false, none, 0, 0, 1⟩,
   ⟨2, 6, "B", false, none, 0, 0, 1⟩,
   ⟨3, 5, "C", false, none, 0, 0, 1⟩]

/-! ### Claim theorems -/

/-- C3: every update of a `todos` row goes through the
`update_todo_version` trigger, which stores `version = old_version + 1` and
`updated_at = now` no matter what the caller's field changes `f` did (the
guarantee cannot be bypassed); consequently across any sequence of updates
the version increases by exactly 1 at each step, never skipping or
decreasing. -/
theorem version_trigger_monotonic :
    (∀ (now : Int) (f : Todo → Todo) (t : Todo),
       (applyUpdate now f t).version = t.version + 1 ∧
       (applyUpdate now f t).updated_at = now) ∧
    (∀ (upds : List (Int × (Todo → Todo))) (t : Todo),
       (upds.foldl (fun t p => applyUpdate p.1 p.2 t) t).version =
         t.version + upds.length) := by
  constructor
  · intro now f t
    exact ⟨rfl, rfl⟩
  · intro upds
    induction upds with
    | nil => intro t; simp
    | cons p rest ih =>
        intro t
        have h := ih (applyUpdate p.1 p.2 t)
        simp only [List.foldl_cons, List.length_cons]
        rw [h]
        show t.version + 1 + rest.length = t.version + (rest.length + 1)
        omega

/-- C4: when the version-guarded conditional update of
`update_todo_with_version` matches zero rows, the returned error is chosen
by re-querying existence by id and owner: no such row for the caller gives
the not-found error, otherwise (row present, version differs) the
version-conflict error; the state is untouched. -/
theorem update_zero_rows_diagnosis (s : List Todo) (now : Int) (u tid : Nat)
    (title : String) (b : Bool) (cat : Option Nat) (expected : Nat)
    (h : s.countP (fun t => t.id == tid && t.user_id == u && t.version == expected) = 0) :
    update_todo_with_version s now u tid title b cat expected =
      (s, ⟨false, 0,
        some (if s.any (fun t => t.id == tid && t.user_id == u) then versionConflictMsg
              else notFoundMsg)⟩) := by
  simp only [update_todo_with_version, updateWhere]
  rw [if_pos h]
  by_cases hx : s.any (fun t => t.id == tid && t.user_id == u) = true
  · rw [if_pos hx, if_pos hx]
  · rw [if_neg hx, if_neg hx]

/-- Witness for C4 at a concrete input: a single row at version 2, queried
with expected version 3 — zero rows match, the row exists for the caller,
so the error is the version conflict. -/
theorem update_zero_rows_diagnosis_witness :
    ([⟨1, 5, "a", false, none, 0, 0, 2⟩] : List Todo).countP
        (fun t => t.id == 1 && t.user_id == 5 && t.version == 3) = 0 ∧
    update_todo_with_version [⟨1, 5, "a", false, none, 0, 0, 2⟩] 9 5 1 "b" true none 3 =
      ([⟨1, 5, "a", false, none, 0, 0, 2⟩],
        ⟨false, 0,
          some (if ([⟨1, 5, "a", false, none, 0, 0, 2⟩] : List Todo).any
                    (fun t => t.id == 1 && t.user_id == 5)
                then versionConflictMsg else notFoundMsg)⟩) :=
  ⟨by decide, update_zero_rows_diagnosis _ 9 5 1 "b" true none 3 (by decide)⟩

/-- C1: each bulk operation is all-or-nothing: whenever its affected row
count differs from the number of requested ids, it returns
`(success := false, count := 0, error_message)` and the stored todos are
exactly the pre-call state; in particular `bulk_delete_todos` over
`[A, B, C]` where B belongs to another user deletes nothing. -/
theorem bulk_all_or_nothing :
    (∀ (s : List Todo) (now : Int) (u : Nat) (ids : List Nat) (b : Bool),
       bulkUpdateCount s now u ids b ≠ ids.length →
       bulk_update_todos s now u ids b =
         (s, ⟨false, 0, some (bulkUpdateMsg ids.length (bulkUpdateCount s now u ids b))⟩)) ∧
    (∀ (s : List Todo) (cats : List Category) (now : Int) (u : Nat)
       (ids : List Nat) (cat : Option Nat),
       bulkAffectedCount s u ids ≠ ids.length →
       (bulk_change_category s cats now u ids cat).1 = s ∧
       (bulk_change_category s cats now u ids cat).2.success = false ∧
       (bulk_change_category s cats now u ids cat).2.count = 0 ∧
       (bulk_change_category s cats now u ids cat).2.error_message ≠ none) ∧
    (∀ (s : List Todo) (u : Nat) (ids : List Nat),
       bulkAffectedCount s u ids ≠ ids.length →
       bulk_delete_todos s u ids =
         (s, ⟨false, 0, some (bulkDeleteMsg ids.length (bulkAffectedCount s u ids))⟩)) ∧
    bulk_delete_todos demoTodos 5 [1, 2, 3] =
      (demoTodos, ⟨false, 0, some (bulkDeleteMsg 3 2)⟩) := by
  refine ⟨?_, ?_, ?_, by decide⟩
  · intro s now u ids b h
    have hne : ids ≠ [] := by
      intro he
      subst he
      exact h rfl
    simp only [bulkUpdateCount] at h ⊢
    simp only [bulk_update_todos]
    rw [if_pos (countMismatch_of_ne hne h)]
  · intro s cats now u ids cat h
    have hne : ids ≠ [] := by
      intro he
      subst he
      rw [bulkAffectedCount_nil] at h
      exact h rfl
    have hmm : countMismatch ids (List.countP (fun t => ids.contains t.id && t.user_id == u) s) = true := by
      simp only [bulkAffectedCount] at h
      exact countMismatch_of_ne hne h
    cases cat with
    | none =>
        simp only [bulk_change_category, updateWhere]
        rw [if_pos hmm]
        exact ⟨rfl, rfl, rfl, by simp⟩
    | some c =>
        by_cases hc : cats.any (fun k => k.id == c && k.user_id == u) = true
        · simp only [bulk_change_category, updateWhere]
          rw [if_pos hc, if_pos hmm]
          exact ⟨rfl, rfl, rfl, by simp⟩
        · simp only [bulk_change_category, updateWhere]
          rw [if_neg hc]
          exact ⟨rfl, rfl, rfl, by simp⟩
  · intro s u ids h
    have hne : ids ≠ [] := by
      intro he
      subst he
      rw [bulkAffectedCount_nil] at h
      exact h rfl
    simp only [bulk_delete_todos]
    rw [if_pos (countMismatch_of_ne hne h)]


/-- Witness for C1 at a concrete input: deleting `[1, 2, 3]` as user 5 when
row 2 belongs to user 6 affects only 2 of 3 rows, so the call fails and
the table is unchanged. -/
theorem bulk_all_or_nothing_witness :
    bulkAffectedCount demoTodos 5 [1, 2, 3] ≠ [1, 2, 3].length ∧
    bulk_delete_todos demoTodos 5 [1, 2, 3] =
      (demoTodos, ⟨false, 0, some (bulkDeleteMsg [1, 2, 3].length (bulkAffectedCount demoTodos 5 [1, 2, 3]))⟩) :=
  ⟨by decide, bulk_all_or_nothing.2.2.1 demoTodos 5 [1, 2, 3] (by decide)⟩

/-- C10 counterexample: calling `bulk_change_category` with an empty id
array but a non-null category id that does not exist returns
`success = false` (the category pre-check raises before the empty update),
refuting "every bulk operation called on an empty todo_ids array returns
success = true". -/
theorem empty_bulk_change_category_fails :
    (bulk_change_category [] [] 0 0 [] (some 5)).2.success = false ∧
    (bulk_change_category [] [] 0 0 [] (some 5)).2.error_message = some categoryDeniedMsg := by
  decide

/-- C10 (amended): with an empty todo_ids array, `array_length` is NULL so
the affected-count-mismatch check never fires, and each bulk operation
returns `success = true` with count 0 and modifies no rows — for
`bulk_change_category` provided its category pre-check passes (category
null, or existing and owned by the caller). -/
theorem empty_bulk_ops (s : List Todo) (cats : List Category) (now : Int)
    (u : Nat) (b : Bool) (cat : Option Nat)
    (hcat : cat = none ∨ ∃ c ∈ cats, cat = some c.id ∧ c.user_id = u) :
    arrayLength [] = none ∧
    (∀ cnt : Nat, countMismatch [] cnt = false) ∧
    bulk_update_todos s now u [] b = (s, ⟨true, 0, none⟩) ∧
    bulk_delete_todos s u [] = (s, ⟨true, 0, none⟩) ∧
    bulk_change_category s cats now u [] cat = (s, ⟨true, 0, none⟩) := by
  have hmap : ∀ (f : Todo → Todo),
      s.map (fun t => if (([] : List Nat).contains t.id && t.user_id == u) = true
        then applyUpdate now f t else t) = s := by
    intro f
    conv_rhs => rw [← List.map_id s]
    apply List.map_congr_left
    intro t _
    simp
  refine ⟨rfl, fun cnt => rfl, rfl, ?_, ?_⟩
  · simp only [bulk_delete_todos, bulkAffectedCount_nil]
    split
    · next hc => exact absurd hc (by decide)
    · rw [List.filter_eq_self.mpr (by intro t _; simp)]
  · have hcnt : List.countP (fun t => ([] : List Nat).contains t.id && t.user_id == u) s = 0 := by
      apply List.countP_eq_zero.mpr
      intro t _
      simp
    cases hcat with
    | inl hnone =>
        subst hnone
        simp only [bulk_change_category, updateWhere, hcnt]
        split
        · next hc => exact absurd hc (by decide)
        · rw [hmap]
    | inr hex =>
        obtain ⟨c, hmem, hcat, huser⟩ := hex
        subst hcat
        have hany : cats.any (fun k => k.id == c.id && k.user_id == u) = true :=
          List.any_eq_true.mpr ⟨c, hmem, by simp [huser]⟩
        simp only [bulk_change_category, updateWhere, hcnt]
        rw [if_pos hany]
        split
        · next hc => exact absurd hc (by decide)
        · rw [hmap]

/-- Witness for C10 at a concrete input: a category owned by the caller. -/
theorem empty_bulk_ops_witness :
    ((some 3 : Option Nat) = none ∨
      ∃ c ∈ [(⟨3, 0, "n", "c"⟩ : Category)], (some 3 : Option Nat) = some c.id ∧ c.user_id = 0) ∧
    (arrayLength [] = none ∧
     (∀ cnt : Nat, countMismatch [] cnt = false) ∧
     bulk_update_todos [] 0 0 [] true = ([], ⟨true, 0, none⟩) ∧
     bulk_delete_todos [] 0 [] = ([], ⟨true, 0, none⟩) ∧
     bulk_change_category [] [⟨3, 0, "n", "c"⟩] 0 0 [] (some 3) = ([], ⟨true, 0, none⟩)) :=
  ⟨by decide, empty_bulk_ops [] [⟨3, 0, "n", "c"⟩] 0 0 true (some 3) (by decide)⟩

lemma updateWhere_mem (now : Int) (p : Todo → Bool) (f : Todo → Todo)
    {s : List Todo} {t : Todo} (ht : t ∈ s) (hpt : p t = true) :
    applyUpdate now f t ∈ (updateWhere now p f s).1 := by
  have h := List.mem_map_of_mem (fun x => if p x then applyUpdate now f x else x) ht
  simp only [hpt, if_true] at h
  exact h

lemma updateWhere_countP_zero (now : Int) (p : Todo → Bool) (f : Todo → Todo)
    (s : List Todo) (hp : ∀ t, p t = true → p (applyUpdate now f t) = false) :
    ((updateWhere now p f s).1).countP p = 0 := by
  unfold updateWhere
  rw [List.countP_map]
  apply List.countP_eq_zero.mpr
  intro a _
  by_cases hpa : p a = true
  · simp only [Function.comp_apply, if_pos hpa]
    rw [hp a hpa]
    simp
  · simp only [Function.comp_apply, if_neg hpa]
    simpa using hpa

/-- C2: for a todo owned by `u` at version `N`, `update_todo_with_version`
with `expected_version = N` succeeds returning `new_version = N + 1` (the
version now stored on the row), and an immediately repeated call with the
stale `expected_version = N` fails with the version-conflict error and
leaves the table unchanged. -/
theorem optimistic_lock_roundtrip (s : List Todo) (now now2 : Int) (u tid : Nat)
    (title title2 : String) (b b2 : Bool) (cat cat2 : Option Nat) (N : Nat)
    (t : Todo) (ht : t ∈ s) (hid : t.id = tid) (hu : t.user_id = u)
    (hv : t.version = N) :
    (update_todo_with_version s now u tid title b cat N).2 = ⟨true, N + 1, none⟩ ∧
    (∃ t' ∈ (update_todo_with_version s now u tid title b cat N).1,
       t'.id = tid ∧ t'.user_id = u ∧ t'.version = N + 1) ∧
    update_todo_with_version (update_todo_with_version s now u tid title b cat N).1
        now2 u tid title2 b2 cat2 N =
      ((update_todo_with_version s now u tid title b cat N).1,
        ⟨false, 0, some versionConflictMsg⟩) := by
  have hpt : (t.id == tid && t.user_id == u && t.version == N) = true := by
    simp [hid, hu, hv]
  have hne : ¬ (s.countP (fun x => x.id == tid && x.user_id == u && x.version == N) = 0) :=
    Nat.pos_iff_ne_zero.mp (List.countP_pos_iff.mpr ⟨t, ht, hpt⟩)
  have hfirst : update_todo_with_version s now u tid title b cat N =
      ((updateWhere now (fun x => x.id == tid && x.user_id == u && x.version == N)
          (fun y => { y with title := title, is_complete := b, category_id := cat }) s).1,
       ⟨true, N + 1, none⟩) := by
    simp only [update_todo_with_version]
    rw [if_neg (by simpa [updateWhere] using hne)]
  have hstep : ∀ x : Todo,
      (x.id == tid && x.user_id == u && x.version == N) = true →
      ((applyUpdate now (fun y => { y with title := title, is_complete := b, category_id := cat }) x).id == tid &&
        (applyUpdate now (fun y => { y with title := title, is_complete := b, category_id := cat }) x).user_id == u &&
        (applyUpdate now (fun y => { y with title := title, is_complete := b, category_id := cat }) x).version == N) = false := by
    intro x hx
    have hxv : x.version = N := by
      simp only [Bool.and_eq_true, beq_iff_eq] at hx
      exact hx.2
    simp [applyUpdate, increment_version, hxv]
  have hzero : ((updateWhere now (fun x => x.id == tid && x.user_id == u && x.version == N)
      (fun y => { y with title := title, is_complete := b, category_id := cat }) s).1).countP
        (fun x => x.id == tid && x.user_id == u && x.version == N) = 0 :=
    updateWhere_countP_zero now _ _ s hstep
  have hmemup := updateWhere_mem now
    (fun x => x.id == tid && x.user_id == u && x.version == N)
    (fun y => { y with title := title, is_complete := b, category_id := cat }) ht hpt
  have hany : ((updateWhere now (fun x => x.id == tid && x.user_id == u && x.version == N)
      (fun y => { y with title := title, is_complete := b, category_id := cat }) s).1).any
        (fun x => x.id == tid && x.user_id == u) = true := by
    apply List.any_eq_true.mpr
    refine ⟨_, hmemup, ?_⟩
    simp [applyUpdate, increment_version, hid, hu]
  refine ⟨by rw [hfirst], ⟨_, by rw [hfirst]; exact hmemup, ?_, ?_, ?_⟩, ?_⟩
  · simp [applyUpdate, increment_version, hid]
  · simp [applyUpdate, increment_version, hu]
  · simp [applyUpdate, increment_version, hv]
  · rw [hfirst]
    simp only [update_todo_with_version]
    rw [if_pos (by simpa [updateWhere] using hzero), if_pos hany]

/-- Witness for C2 at a concrete input: one todo at version 3; the first
guarded update succeeds giving version 4, the repeat with expected
version 3 hits the version conflict. -/
theorem optimistic_lock_roundtrip_witness :
    (update_todo_with_version [⟨1, 5, "a", false, none, 0, 0, 3⟩] 9 5 1 "b" true none 3).2 =
        ⟨true, 4, none⟩ ∧
    (∃ t' ∈ (update_todo_with_version [⟨1, 5, "a", false, none, 0, 0, 3⟩] 9 5 1 "b" true none 3).1,
       t'.id = 1 ∧ t'.user_id = 5 ∧ t'.version = 4) ∧
    update_todo_with_version
        (update_todo_with_version [⟨1, 5, "a", false, none, 0, 0, 3⟩] 9 5 1 "b" true none 3).1
        11 5 1 "c" false none 3 =
      ((update_todo_with_version [⟨1, 5, "a", false, none, 0, 0, 3⟩] 9 5 1 "b" true none 3).1,
        ⟨false, 0, some versionConflictMsg⟩) :=
  optimistic_lock_roundtrip [⟨1, 5, "a", false, none, 0, 0, 3⟩] 9 11 5 1 "b" "c" true false
    none none 3 ⟨1, 5, "a", false, none, 0, 0, 3⟩ (by decide) rfl rfl rfl

lemma countP_or_disjoint {α : Type} (p q : α → Bool) :
    ∀ l : List α, (∀ a ∈ l, p a = true → q a = false) →
    l.countP (fun a => p a || q a) = l.countP p + l.countP q := by
  intro l
  induction l with
  | nil => intro _; simp
  | cons x xs ih =>
      intro hd
      have hx := hd x (List.mem_cons_self x xs)
      have ih' := ih (fun a ha hpa => hd a (List.mem_cons_of_mem x ha) hpa)
      by_cases hp : p x = true
      · simp only [List.countP_cons, ih', hp, hx hp]
        simp
        omega
      · by_cases hq : q x = true
        · simp only [List.countP_cons, ih', Bool.not_eq_true] at *
          simp [hp, hq]
          omega
        · simp only [List.countP_cons, ih', Bool.not_eq_true] at *
          simp [hp, hq]

lemma contains_cons_eq (l : List Nat) (a i : Nat) :
    (i :: l).contains a = (a == i || l.contains a) := rfl

/-- The single-statement form of the `bulk_update_todos` loop: under a
duplicate-free id list the iterative sweep equals one set-based update and
its accumulated count equals the set-based row count. -/
lemma bulkUpdateLoop_spec (now : Int) (u : Nat) (b : Bool) :
    ∀ (ids : List Nat) (s : List Todo) (c : Nat), ids.Nodup →
    bulkUpdateLoop now u b ids (s, c) =
      ((updateWhere now (fun t => ids.contains t.id && t.user_id == u)
          (fun t => { t with is_complete := b }) s).1,
       c + s.countP (fun t => ids.contains t.id && t.user_id == u)) := by
  intro ids
  induction ids with
  | nil =>
      intro s c _
      have hmapnil :
          List.map (fun t => if (([] : List Nat).contains t.id && t.user_id == u) = true
            then applyUpdate now (fun t => { t with is_complete := b }) t else t) s = s := by
        conv_rhs => rw [← List.map_id s]
        apply List.map_congr_left
        intro t _
        simp
      have hcntnil : s.countP (fun t => ([] : List Nat).contains t.id && t.user_id == u) = 0 :=
        List.countP_eq_zero.mpr (by intro t _; simp)
      simp only [bulkUpdateLoop, updateWhere, hmapnil, hcntnil, Nat.add_zero]
  | cons i rest ih =>
      intro s c hnd
      have hi : i ∉ rest := (List.nodup_cons.mp hnd).1
      have hrest : rest.Nodup := (List.nodup_cons.mp hnd).2
      have hpres : ∀ x : Todo,
          (rest.contains (applyUpdate now (fun t => { t with is_complete := b }) x).id &&
            (applyUpdate now (fun t => { t with is_complete := b }) x).user_id == u) =
          (rest.contains x.id && x.user_id == u) := fun _ => rfl
      simp only [bulkUpdateLoop]
      rw [ih _ _ hrest]
      have hcountA :
          ((updateWhere now (fun t => t.id == i && t.user_id == u)
              (fun t => { t with is_complete := b }) s).1).countP
            (fun t => rest.contains t.id && t.user_id == u) =
          s.countP (fun t => rest.contains t.id && t.user_id == u) := by
        simp only [updateWhere]
        rw [List.countP_map]
        apply List.countP_congr
        intro a _
        by_cases hp : (a.id == i && a.user_id == u) = true
        · simp only [Function.comp_apply, if_pos hp]
          rw [hpres a]
        · simp only [Function.comp_apply, if_neg hp]
      have hdisj : ∀ a : Todo, a ∈ s → (a.id == i && a.user_id == u) = true →
          (rest.contains a.id && a.user_id == u) = false := by
        intro a _ hpa
        have hai : a.id = i := by
          simp only [Bool.and_eq_true, beq_iff_eq] at hpa
          exact hpa.1
        have hnc : rest.contains a.id = false := by
          rw [hai]
          simpa using hi
        rw [hnc, Bool.false_and]
      have hcountB :
          s.countP (fun t => (i :: rest).contains t.id && t.user_id == u) =
          s.countP (fun t => t.id == i && t.user_id == u) +
            s.countP (fun t => rest.contains t.id && t.user_id == u) := by
        rw [← countP_or_disjoint _ _ s hdisj]
        apply List.countP_congr
        intro a _
        rw [contains_cons_eq]
        cases h1 : a.id == i <;> cases h2 : rest.contains a.id <;> simp [h1, h2]
      have hstate :
          (updateWhere now (fun t => rest.contains t.id && t.user_id == u)
            (fun t => { t with is_complete := b })
            ((updateWhere now (fun t => t.id == i && t.user_id == u)
              (fun t => { t with is_complete := b }) s).1)).1 =
          (updateWhere now (fun t => (i :: rest).contains t.id && t.user_id == u)
            (fun t => { t with is_complete := b }) s).1 := by
        simp only [updateWhere]
        rw [List.map_map]
        apply List.map_congr_left
        intro a ha
        by_cases h1 : (a.id == i && a.user_id == u) = true
        · have h2 : (rest.contains a.id && a.user_id == u) = false := hdisj a ha h1
          have hcomb : ((i :: rest).contains a.id && a.user_id == u) = true := by
            rw [contains_cons_eq]
            simp only [Bool.and_eq_true] at h1
            rw [h1.1, h1.2]
            rfl
          simp only [Function.comp_apply, if_pos h1, hpres, h2, hcomb]
          simp
        · by_cases h2 : (rest.contains a.id && a.user_id == u) = true
          · have hcomb : ((i :: rest).contains a.id && a.user_id == u) = true := by
              rw [contains_cons_eq]
              simp only [Bool.and_eq_true] at h2
              rw [h2.1, h2.2, Bool.or_true]
              rfl
            simp only [Function.comp_apply, if_neg h1, if_pos h2, hcomb]
            simp
          · have hcomb : ((i :: rest).contains a.id && a.user_id == u) = false := by
              rw [contains_cons_eq]
              cases hx : a.id == i
              · cases hy : rest.contains a.id
                · rfl
                · simp only [Bool.not_eq_true] at h2
                  simp only [hy, Bool.true_and] at h2
                  rw [h2, Bool.and_false]
              · simp only [Bool.not_eq_true] at h1
                simp only [hx, Bool.true_and] at h1
                rw [h1, Bool.and_false]
            simp only [Function.comp_apply, if_neg h1, if_neg h2, hcomb]
            simp
      rw [hcountA, hcountB, hstate]
      rw [Nat.add_assoc]
      rfl

/-- C5 counterexample: over the single-row table `[todo 1 of user 7]`, the
duplicate id list `[1, 1]` makes the iterative `bulk_update_todos` succeed
(its loop counts the same row twice, count 2 = array length 2) while the
set-based `bulk_update_todos_efficient` fails (one row matched ≠ 2): the
two strategies do not always produce identical observable results. -/
theorem bulk_update_strategies_differ :
    bulk_update_todos [⟨1, 7, "t", false, none, 0, 0, 1⟩] 0 7 [1, 1] true ≠
      bulk_update_todos_efficient [⟨1, 7, "t", false, none, 0, 0, 1⟩] 0 7 [1, 1] true ∧
    (bulk_update_todos [⟨1, 7, "t", false, none, 0, 0, 1⟩] 0 7 [1, 1] true).2.success = true ∧
    (bulk_update_todos_efficient [⟨1, 7, "t", false, none, 0, 0, 1⟩] 0 7 [1, 1] true).2.success = false := by
  decide

/-- C5 (amended): for every duplicate-free id list the iterative
`bulk_update_todos` and the set-based `bulk_update_todos_efficient` return
identical observable results — same success flag, same count, same error
message and same resulting rows (versions included). -/
theorem bulk_update_strategies_equal (s : List Todo) (now : Int) (u : Nat)
    (ids : List Nat) (b : Bool) (h : ids.Nodup) :
    bulk_update_todos s now u ids b = bulk_update_todos_efficient s now u ids b := by
  simp only [bulk_update_todos, bulk_update_todos_efficient]
  rw [bulkUpdateLoop_spec now u b ids s 0 h]
  simp only [updateWhere, Nat.zero_add]

/-- Witness for C5 at a concrete input: the duplicate-free list `[1, 3]`
on the demonstration table gives equal results for both strategies. -/
theorem bulk_update_strategies_equal_witness :
    ([1, 3] : List Nat).Nodup ∧
    bulk_update_todos demoTodos 2 5 [1, 3] true =
      bulk_update_todos_efficient demoTodos 2 5 [1, 3] true :=
  ⟨by decide, bulk_update_strategies_equal demoTodos 2 5 [1, 3] true (by decide)⟩

lemma provisionUser_idem (st : ProvisionState) (u : Nat) :
    provisionUser (provisionUser st u) u = provisionUser st u := by
  by_cases h : st.profiles.contains u = true
  · unfold provisionUser
    rw [if_pos h, if_pos h]
  · unfold provisionUser
    rw [if_neg h]
    exact if_pos (List.elem_eq_true_of_mem (by simp))

lemma create_default_categories_fresh (cats : List Category) (u : Nat)
    (hcats : ∀ c ∈ cats, c.user_id ≠ u) :
    create_default_categories cats u = cats ++ defaultCategoryList u := by
  have hany : ∀ nm : String, cats.any (fun k => k.user_id == u && k.name == nm) = false := by
    intro nm
    apply List.any_eq_false.mpr
    intro c hc
    simp [hcats c hc]
  simp [create_default_categories, defaultCategoryList, insertCategory, List.any_append, hany]

/-- C9: the new-user provisioning hook is idempotent — a second invocation
for the same user id changes nothing — and for a fresh user it produces
exactly one profile row and exactly the 4 starter categories (one per fixed
starter name), not duplicates. -/
theorem provisioning_idempotent :
    (∀ (st : ProvisionState) (u : Nat),
       provisionUser (provisionUser st u) u = provisionUser st u) ∧
    (∀ (st : ProvisionState) (u : Nat),
       st.profiles.contains u = false →
       (∀ c ∈ st.categories, c.user_id ≠ u) →
       ((provisionUser (provisionUser st u) u).profiles.count u = 1 ∧
        ((provisionUser (provisionUser st u) u).categories.filter
            (fun c => c.user_id == u)).map Category.name =
          ["仕事", "個人", "勉強", "買い物"] ∧
        ((provisionUser (provisionUser st u) u).categories.filter
            (fun c => c.user_id == u)).length = 4)) := by
  refine ⟨provisionUser_idem, ?_⟩
  intro st u h hcats
  rw [provisionUser_idem]
  unfold provisionUser
  rw [if_neg (by rw [h]; simp)]
  have hnm : u ∉ st.profiles := by
    intro hm
    have hc := List.elem_eq_true_of_mem hm
    have h' : List.elem u st.profiles = false := h
    rw [h'] at hc
    cases hc
  have hfil : st.categories.filter (fun c => c.user_id == u) = [] := by
    apply List.filter_eq_nil_iff.mpr
    intro c hc
    simp [hcats c hc]
  refine ⟨?_, ?_, ?_⟩
  · rw [List.count_append, List.count_eq_zero.mpr hnm]
    simp
  · rw [create_default_categories_fresh st.categories u hcats,
      List.filter_append, hfil]
    simp [defaultCategoryList]
  · rw [create_default_categories_fresh st.categories u hcats,
      List.filter_append, hfil]
    simp [defaultCategoryList]

/-- Witness for C9 at a concrete input: provisioning user 0 twice from the
empty store yields one profile and the 4 starter categories. -/
theorem provisioning_idempotent_witness :
    (⟨[], []⟩ : ProvisionState).profiles.contains 0 = false ∧
    ((provisionUser (provisionUser ⟨[], []⟩ 0) 0).profiles.count 0 = 1 ∧
     ((provisionUser (provisionUser ⟨[], []⟩ 0) 0).categories.filter
         (fun c => c.user_id == 0)).map Category.name =
       ["仕事", "個人", "勉強", "買い物"] ∧
     ((provisionUser (provisionUser ⟨[], []⟩ 0) 0).categories.filter
         (fun c => c.user_id == 0)).length = 4) :=
  ⟨by decide, provisioning_idempotent.2 ⟨[], []⟩ 0 (by decide) (by decide)⟩

/-- 25 todos of user 0 with distinct creation timestamps 0..24. -/
def todos25 : List Todo :=
  (List.range 25).map (fun i => ⟨i, 0, "", false, none, (i : Int), 0, 1⟩)

/-- The behaviour `get_todos_cursor` is claimed to have: a null cursor is
the `now + oneDay` sentinel; the page is the `limit`-long prefix of the
matching rows ordered by `created_at` descending; `has_more` holds iff an
extra row beyond `limit` existed; every returned row lies strictly before
the cursor. -/
def CursorSpec (s : List Todo) (cats : List Category) (u : Nat)
    (cursor : Option Int) (now : Int) (limit : Nat) (q : Option String)
    (catf : Option Nat) : Prop :=
  (get_todos_cursor s cats u cursor now limit q catf).rows =
    (List.insertionSort cursorLe
      ((cursorMatches s u (cursor.getD (now + oneDay)) (normalizeQuery q) catf).map
        (cursorRowOf cats))).take limit ∧
  ((get_todos_cursor s cats u cursor now limit q catf).has_more = true ↔
    limit < (cursorMatches s u (cursor.getD (now + oneDay)) (normalizeQuery q) catf).length) ∧
  (get_todos_cursor s cats u cursor now limit q catf).rows.length ≤ limit ∧
  List.Sorted cursorLe (get_todos_cursor s cats u cursor now limit q catf).rows ∧
  (∀ r ∈ (get_todos_cursor s cats u cursor now limit q catf).rows,
     r.created_at < cursor.getD (now + oneDay)) ∧
  (cursor = none →
    cursorMatches s u (cursor.getD (now + oneDay)) (normalizeQuery q) catf =
      s.filter (fun t => t.user_id == u && searchMatch (normalizeQuery q) t && catFilterOk catf t))

/-- C7: `get_todos_cursor` treats a null cursor as the `now + 1 day`
sentinel so every (past-dated) row qualifies, returns at most `limit` rows
strictly before the cursor in `created_at`-descending order, fetching
`limit + 1` internally so that `has_more` holds exactly when an extra row
existed; consequently for 25 matching todos with `limit = 20` the first
page has 20 rows with `has_more = true`, and the second call from the 20th
row's `created_at` returns the remaining 5 with `has_more = false`. -/
theorem cursor_pagination (s : List Todo) (cats : List Category) (u : Nat)
    (cursor : Option Int) (now : Int) (limit : Nat) (q : Option String)
    (catf : Option Nat) (h : ∀ t ∈ s, t.created_at ≤ now) :
    CursorSpec s cats u cursor now limit q catf ∧
    ((get_todos_cursor todos25 [] 0 none 30 20 none none).rows.length = 20 ∧
     (get_todos_cursor todos25 [] 0 none 30 20 none none).has_more = true ∧
     ((get_todos_cursor todos25 [] 0 none 30 20 none none).rows.getLast?.map
        CursorRow.created_at) = some 5 ∧
     (get_todos_cursor todos25 [] 0 (some 5) 30 20 none none).rows.length = 5 ∧
     (get_todos_cursor todos25 [] 0 (some 5) 30 20 none none).has_more = false) := by
  constructor
  · have hsortlen :
        (List.insertionSort cursorLe
          ((cursorMatches s u (cursor.getD (now + oneDay)) (normalizeQuery q) catf).map
            (cursorRowOf cats))).length =
        (cursorMatches s u (cursor.getD (now + oneDay)) (normalizeQuery q) catf).length := by
      rw [(List.perm_insertionSort cursorLe _).length_eq, List.length_map]
    refine ⟨?_, ?_, ?_, ?_, ?_, ?_⟩
    · show (((List.insertionSort cursorLe _).take (limit + 1)).take limit) = _
      rw [List.take_take]
      congr 1
      omega
    · show decide (((List.insertionSort cursorLe _).take (limit + 1)).length > limit) = true ↔ _
      rw [decide_eq_true_iff, List.length_take, hsortlen]
      omega
    · show (((List.insertionSort cursorLe _).take (limit + 1)).take limit).length ≤ limit
      rw [List.length_take]
      omega
    · exact ((List.sorted_insertionSort cursorLe _).sublist
        ((List.take_sublist _ _).trans (List.take_sublist _ _)))
    · intro r hr
      have hr1 : r ∈ List.insertionSort cursorLe
          ((cursorMatches s u (cursor.getD (now + oneDay)) (normalizeQuery q) catf).map
            (cursorRowOf cats)) :=
        List.mem_of_mem_take (List.mem_of_mem_take hr)
      have hr2 := ((List.perm_insertionSort cursorLe _).mem_iff).mp hr1
      obtain ⟨t, htm, hteq⟩ := List.mem_map.mp hr2
      have hpred := (List.mem_filter.mp htm).2
      simp only [Bool.and_eq_true] at hpred
      have hlt : t.created_at < cursor.getD (now + oneDay) :=
        of_decide_eq_true hpred.1.1.2
      rw [← hteq]
      exact hlt
    · intro hc
      subst hc
      apply List.filter_congr
      intro t ht
      have hd : decide (t.created_at < (none : Option Int).getD (now + oneDay)) = true := by
        apply decide_eq_true
        have := h t ht
        simp only [Option.getD_none, oneDay]
        omega
      rw [hd, Bool.and_true]
  · refine ⟨by decide, by decide, by decide, by decide, by decide⟩

/-- Witness for C7 at a concrete input: the 25-row table at `now = 30`
(every row is past-dated, discharging the hypothesis). -/
theorem cursor_pagination_witness :
    (∀ t ∈ todos25, t.created_at ≤ 30) ∧
    (CursorSpec todos25 [] 0 none 30 20 none none ∧
     ((get_todos_cursor todos25 [] 0 none 30 20 none none).rows.length = 20 ∧
      (get_todos_cursor todos25 [] 0 none 30 20 none none).has_more = true ∧
      ((get_todos_cursor todos25 [] 0 none 30 20 none none).rows.getLast?.map
         CursorRow.created_at) = some 5 ∧
      (get_todos_cursor todos25 [] 0 (some 5) 30 20 none none).rows.length = 5 ∧
      (get_todos_cursor todos25 [] 0 (some 5) 30 20 none none).has_more = false)) :=
  ⟨by decide, cursor_pagination todos25 [] 0 none 30 20 none none (by decide)⟩

lemma likeMatch_percent_all (s : List Char) : likeMatch ['%'] s = true := by
  rw [likeMatch.eq_def]
  simp only [if_pos rfl]
  apply List.any_eq_true.mpr
  refine ⟨[], by simp [List.mem_tails], rfl⟩

lemma likeMatch_head_lit (c : Char) (p : List Char)
    (hand : c ≠ '%' ∧ c ≠ '_' ∧ c ≠ '\\') :
    (likeMatch (c :: p) [] = false) ∧
    (∀ (d : Char) (s' : List Char),
      likeMatch (c :: p) (d :: s') = (c == d && likeMatch p s')) := by
  constructor
  · rw [likeMatch.eq_def]
    simp [hand.1, hand.2.1, hand.2.2]
  · intro d s'
    rw [likeMatch.eq_def]
    simp [hand.1, hand.2.1, hand.2.2]

/-- For a pattern free of `%`, `_` and the escape character, matching
`pat ++ ['%']` is exactly a starts-with test. -/
lemma likeMatch_literal_starts :
    ∀ p : List Char, (∀ c ∈ p, c ≠ '%' ∧ c ≠ '_' ∧ c ≠ '\\') →
    ∀ s : List Char, likeMatch (p ++ ['%']) s = p.isPrefixOf s := by
  intro p
  induction p with
  | nil =>
      intro _ s
      rw [List.nil_append, likeMatch_percent_all]
      cases s <;> rfl
  | cons c p ih =>
      intro hw s
      have hc := hw c (List.mem_cons_self c p)
      have hw' : ∀ x ∈ p, x ≠ '%' ∧ x ≠ '_' ∧ x ≠ '\\' :=
        fun x hx => hw x (List.mem_cons_of_mem c hx)
      cases s with
      | nil =>
          rw [List.cons_append, (likeMatch_head_lit c (p ++ ['%']) hc).1]
          rfl
      | cons d s' =>
          rw [List.cons_append, (likeMatch_head_lit c (p ++ ['%']) hc).2 d s', ih hw' s']
          rfl

/-- C8 counterexample: for the query `"a%"` (whose normalisation is
`"a%"`), `get_search_suggestions` over the single todo titled `"ab"`
returns the suggestion `("ab", 1)`, although `"ab"` does not start with
the normalised query — the `%` in the query acts as a LIKE wildcard, so
"titles whose lowercased title starts with the normalized query" is not
what the code computes. -/
theorem suggestions_wildcard_leak :
    get_search_suggestions [⟨1, 0, "ab", false, none, 0, 0, 1⟩] 0 (some "a%") 5 =
      [("ab", 1)] ∧
    normalizeQuery (some "a%") = "a%" ∧
    ("a%".data.isPrefixOf "ab".data) = false := by
  refine ⟨by decide, by decide, by decide⟩

/-- The behaviour `get_search_suggestions` is claimed to have for a
non-empty normalised query.  The first conjunct characterises the output
exactly — it *is* the distinct (deduplicated) truncated titles of the
caller's LIKE-prefix-matched todos, each paired with its occurrence
count, ordered by count descending then suggestion ascending, truncated
to `limit` — so every qualifying group is returned (up to the limit), not
merely every returned pair qualifying.  The remaining conjuncts restate
the advertised consequences: every returned pair is the truncation of a
LIKE-prefix-matched title of the caller with its true occurrence count;
the suggestions are distinct, sorted by `(count desc, text asc)`, and at
most `limit` many; and for queries containing no LIKE wildcard (`%`, `_`,
`\`) the LIKE prefix test is exactly starts-with. -/
def SuggestSpec (s : List Todo) (u : Nat) (q : Option String) (limit : Nat) : Prop :=
  (get_search_suggestions s u q limit =
    (List.insertionSort suggLe ((suggestTitles s u (normalizeQuery q)).dedup.map
      (fun g => (g, (suggestTitles s u (normalizeQuery q)).count g)))).take limit) ∧
  (∀ p ∈ get_search_suggestions s u q limit,
     ∃ t ∈ s, t.user_id = u ∧
       likeStr (normalizeQuery q ++ "%") (lowerStr t.title) = true ∧
       p.1 = truncTitle t.title ∧
       p.2 = (suggestTitles s u (normalizeQuery q)).count p.1) ∧
  ((get_search_suggestions s u q limit).map Prod.fst).Nodup ∧
  List.Sorted suggLe (get_search_suggestions s u q limit) ∧
  (get_search_suggestions s u q limit).length ≤ limit ∧
  (∀ w : String, (∀ c ∈ (normalizeQuery q).data, c ≠ '%' ∧ c ≠ '_' ∧ c ≠ '\\') →
     (likeStr (normalizeQuery q ++ "%") w = true ↔
       (normalizeQuery q).data.isPrefixOf w.data = true))

/-- C8 (amended): for every non-empty normalised query,
`get_search_suggestions` returns the distinct truncated (47 characters
plus `"..."`, 50 total, when longer than 50) titles of the caller's todos
whose lowercased title matches the SQL LIKE pattern `query || '%'` — which
for wildcard-free queries is exactly "starts with the query" — grouped
with occurrence counts, ordered by count descending then suggestion
ascending, limited to `limit`; a query normalising to empty yields `[]`
without consulting the todos. -/
theorem suggestions_behavior (s : List Todo) (u : Nat) (q : Option String)
    (limit : Nat) (hv : normalizeQuery q ≠ "") :
    SuggestSpec s u q limit ∧
    (∀ (s0 : List Todo) (q0 : Option String), normalizeQuery q0 = "" →
       get_search_suggestions s0 u q0 limit = []) := by
  constructor
  swap
  · intro s0 q0 h0
    simp only [get_search_suggestions]
    rw [if_pos h0]
  have hout : get_search_suggestions s u q limit =
      (List.insertionSort suggLe ((suggestTitles s u (normalizeQuery q)).dedup.map
        (fun g => (g, (suggestTitles s u (normalizeQuery q)).count g)))).take limit := by
    simp only [get_search_suggestions]
    rw [if_neg hv]
  refine ⟨hout, ?_, ?_, ?_, ?_, ?_⟩
  · intro p hp
    rw [hout] at hp
    have hp1 := ((List.perm_insertionSort suggLe _).mem_iff).mp (List.mem_of_mem_take hp)
    obtain ⟨g, hg, hpg⟩ := List.mem_map.mp hp1
    have hgt : g ∈ suggestTitles s u (normalizeQuery q) := List.mem_dedup.mp hg
    obtain ⟨t, htf, hteq⟩ := List.mem_map.mp hgt
    have htf' := List.mem_filter.mp htf
    have hpred := htf'.2
    simp only [Bool.and_eq_true, beq_iff_eq] at hpred
    subst hpg
    refine ⟨t, htf'.1, hpred.1, hpred.2, ?_, rfl⟩
    exact hteq.symm
  · rw [hout]
    have hfst : ((List.insertionSort suggLe ((suggestTitles s u (normalizeQuery q)).dedup.map
        (fun g => (g, (suggestTitles s u (normalizeQuery q)).count g)))).map Prod.fst).Nodup := by
      apply (((List.perm_insertionSort suggLe _).map Prod.fst).nodup_iff).mpr
      rw [List.map_map]
      have : (Prod.fst ∘ fun g => (g, (suggestTitles s u (normalizeQuery q)).count g)) = id := rfl
      rw [this, List.map_id]
      exact List.nodup_dedup _
    rw [List.map_take]
    exact List.Nodup.sublist (List.take_sublist _ _) hfst
  · rw [hout]
    exact (List.sorted_insertionSort suggLe _).sublist (List.take_sublist _ _)
  · rw [hout]
    rw [List.length_take]
    omega
  · intro w hw
    unfold likeStr
    rw [String.data_append]
    rw [likeMatch_literal_starts (normalizeQuery q).data hw w.data]

/-- Witness for C8 at a concrete input: three todos, query `"app"`. -/
theorem suggestions_behavior_witness :
    SuggestSpec [⟨1, 0, "apple", false, none, 0, 0, 1⟩,
                 ⟨2, 0, "application", false, none, 5, 0, 1⟩,
                 ⟨3, 0, "banana", false, none, 9, 0, 1⟩] 0 (some "app") 5 ∧
    (∀ (s0 : List Todo) (q0 : Option String), normalizeQuery q0 = "" →
       get_search_suggestions s0 0 q0 5 = []) :=
  suggestions_behavior _ 0 (some "app") 5 (by decide)

lemma mkRat_four_fifths : mkRat 4 5 = 4/5 := by norm_num [mkRat, Rat.normalize]

lemma mkRat_three_fifths : mkRat 3 5 = 3/5 := by norm_num [mkRat, Rat.normalize]

lemma mkRat_one_fifth : mkRat 1 5 = 1/5 := by norm_num [mkRat, Rat.normalize]

lemma searchRank_of_exact {v title : String} (hv : v ≠ "") (h : lowerStr title = v) :
    searchRank v title = 1 := by
  unfold searchRank
  rw [if_neg hv, if_pos h]

lemma searchRank_of_start {v title : String} (hv : v ≠ "") (hne : lowerStr title ≠ v)
    (h : startTierB v title = true) : searchRank v title = mkRat 4 5 := by
  unfold searchRank
  rw [if_neg hv, if_neg hne, if_pos h]

lemma searchRank_of_sub {v title : String} (hv : v ≠ "") (hne : lowerStr title ≠ v)
    (h1 : startTierB v title = false) (h2 : subTierB v title = true) :
    searchRank v title = mkRat 3 5 := by
  unfold searchRank
  rw [if_neg hv, if_neg hne, if_neg (by rw [h1]; simp), if_pos h2]

lemma searchRank_of_fuzzy {v title : String} (hv : v ≠ "") (hne : lowerStr title ≠ v)
    (h1 : startTierB v title = false) (h2 : subTierB v title = false) :
    searchRank v title = similarity (lowerStr title) v := by
  unfold searchRank
  rw [if_neg hv, if_neg hne, if_neg (by rw [h1]; simp), if_neg (by rw [h2]; simp)]

lemma sim_gt_of_match {v : String} {t : Todo} (hv : v ≠ "")
    (hsub : subTierB v t.title = false) (hm : searchMatch v t = true) :
    similarity (lowerStr t.title) v > mkRat 1 5 := by
  unfold searchMatch at hm
  rw [Bool.or_eq_true, Bool.or_eq_true] at hm
  rcases hm with (h | h) | h
  · exact absurd (eq_of_beq h) hv
  · rw [hsub] at h
    exact absurd h (by simp)
  · exact of_decide_eq_true h

lemma searchMatch_false {v : String} {t : Todo} (hv : v ≠ "")
    (hsub : subTierB v t.title = false)
    (hle : similarity (lowerStr t.title) v ≤ mkRat 1 5) : searchMatch v t = false := by
  unfold searchMatch
  rw [beq_eq_false_iff_ne.mpr hv, hsub, decide_eq_false (not_lt.mpr hle)]
  rfl

lemma mem_search_todos {s : List Todo} {cats : List Category} {u : Nat}
    {q : Option String} {catf : Option Nat} {limit offset : Nat} {r : SearchRow}
    (hr : r ∈ search_todos s cats u q catf limit offset) :
    ∃ t ∈ s, t.user_id = u ∧ searchMatch (normalizeQuery q) t = true ∧
      catFilterOk catf t = true ∧ searchRowOf cats (normalizeQuery q) t = r := by
  simp only [search_todos] at hr
  have h1 := List.mem_of_mem_drop (List.mem_of_mem_take hr)
  have h2 := ((List.perm_insertionSort searchLe _).mem_iff).mp h1
  obtain ⟨t, htf, hteq⟩ := List.mem_map.mp h2
  have h3 := List.mem_filter.mp htf
  have h4 := h3.2
  simp only [Bool.and_eq_true, beq_iff_eq] at h4
  exact ⟨t, h3.1, h4.1.1, h4.1.2, h4.2, hteq⟩

/-- C6 counterexample: for the term `"abcdefg"`, the row titled
`"abcdef"` is in the fuzzy tier (no substring match; trigram similarity
2/3 > 0.2) while `"zz abcdefg"` is in the substring tier (rank 3/5 = 0.6);
the fuzzy row's rank 2/3 exceeds 3/5, so `search_todos` returns the fuzzy
row *above* the substring row — refuting "every substring-match row ranks
above every fuzzy-tier row". -/
theorem search_fuzzy_outranks_substring :
    (subTierB (normalizeQuery (some "abcdefg")) "zz abcdefg" = true ∧
     startTierB (normalizeQuery (some "abcdefg")) "zz abcdefg" = false ∧
     lowerStr "zz abcdefg" ≠ normalizeQuery (some "abcdefg") ∧
     subTierB (normalizeQuery (some "abcdefg")) "abcdef" = false ∧
     startTierB (normalizeQuery (some "abcdefg")) "abcdef" = false ∧
     lowerStr "abcdef" ≠ normalizeQuery (some "abcdefg") ∧
     (search_todos [⟨1, 0, "zz abcdefg", false, none, 10, 0, 1⟩,
                    ⟨2, 0, "abcdef", false, none, 0, 0, 1⟩] [] 0 (some "abcdefg") none 10 0).map
         (fun r => (r.title, r.rank)) =
       [("abcdef", mkRat 2 3), ("zz abcdefg", mkRat 3 5)] ∧
     mkRat 3 5 < mkRat 2 3) ∧
    mkRat 3 5 = 3/5 ∧ mkRat 2 3 = 2/3 := by
  refine ⟨by decide, ?_, ?_⟩
  · norm_num [mkRat, Rat.normalize]
  · norm_num [mkRat, Rat.normalize]

/-- The ranking behaviour `search_todos` has for a non-empty normalised
term `v`: every returned row carries the CASE-expression rank; ranks are
1 for exact, 0.8 for LIKE tier `v || '%'`, 0.6 for LIKE tier
`'%' || v || '%'`, and the trigram similarity (necessarily above the 0.2
threshold) otherwise; rows in the fuzzy tier at or below 0.2 are filtered
out; the output is ordered by rank descending with `created_at` descending
as tie-break; exact rows outrank LIKE-front-tier rows, which outrank
substring-tier rows, which outrank those fuzzy rows whose similarity is
below 0.6 (a fuzzy similarity may exceed 0.6 and then outranks the
substring tier). -/
def SearchSpec (s : List Todo) (cats : List Category) (u : Nat)
    (q : Option String) (catf : Option Nat) (limit offset : Nat) : Prop :=
  (∀ r ∈ search_todos s cats u q catf limit offset,
     r.rank = searchRank (normalizeQuery q) r.title) ∧
  (∀ r ∈ search_todos s cats u q catf limit offset,
     (lowerStr r.title = normalizeQuery q → r.rank = 1) ∧
     (lowerStr r.title ≠ normalizeQuery q →
        startTierB (normalizeQuery q) r.title = true → r.rank = 4/5) ∧
     (lowerStr r.title ≠ normalizeQuery q →
        startTierB (normalizeQuery q) r.title = false →
        subTierB (normalizeQuery q) r.title = true → r.rank = 3/5) ∧
     (lowerStr r.title ≠ normalizeQuery q →
        startTierB (normalizeQuery q) r.title = false →
        subTierB (normalizeQuery q) r.title = false →
        r.rank = similarity (lowerStr r.title) (normalizeQuery q) ∧
          similarity (lowerStr r.title) (normalizeQuery q) > 1/5)) ∧
  (∀ t ∈ s, subTierB (normalizeQuery q) t.title = false →
     similarity (lowerStr t.title) (normalizeQuery q) ≤ 1/5 →
     searchMatch (normalizeQuery q) t = false) ∧
  List.Sorted searchLe (search_todos s cats u q catf limit offset) ∧
  (∀ r1 ∈ search_todos s cats u q catf limit offset,
   ∀ r2 ∈ search_todos s cats u q catf limit offset,
     (lowerStr r1.title = normalizeQuery q → lowerStr r2.title ≠ normalizeQuery q →
        startTierB (normalizeQuery q) r2.title = true → r2.rank < r1.rank) ∧
     (lowerStr r1.title ≠ normalizeQuery q →
        startTierB (normalizeQuery q) r1.title = true →
        lowerStr r2.title ≠ normalizeQuery q →
        startTierB (normalizeQuery q) r2.title = false →
        subTierB (normalizeQuery q) r2.title = true → r2.rank < r1.rank) ∧
     (lowerStr r1.title ≠ normalizeQuery q →
        startTierB (normalizeQuery q) r1.title = false →
        subTierB (normalizeQuery q) r1.title = true →
        lowerStr r2.title ≠ normalizeQuery q →
        startTierB (normalizeQuery q) r2.title = false →
        subTierB (normalizeQuery q) r2.title = false →
        similarity (lowerStr r2.title) (normalizeQuery q) < 3/5 → r2.rank < r1.rank))

/-- C6 (amended): the tiered ranking of `search_todos`, with the last
comparison weakened as the counterexample forces: a fuzzy-tier row ranks
below substring-tier rows only when its trigram similarity is below 0.6. -/
theorem search_ranking (s : List Todo) (cats : List Category) (u : Nat)
    (q : Option String) (catf : Option Nat) (limit offset : Nat)
    (hv : normalizeQuery q ≠ "") : SearchSpec s cats u q catf limit offset := by
  have tiers : ∀ r ∈ search_todos s cats u q catf limit offset,
      (lowerStr r.title = normalizeQuery q → r.rank = 1) ∧
      (lowerStr r.title ≠ normalizeQuery q →
         startTierB (normalizeQuery q) r.title = true → r.rank = 4/5) ∧
      (lowerStr r.title ≠ normalizeQuery q →
         startTierB (normalizeQuery q) r.title = false →
         subTierB (normalizeQuery q) r.title = true → r.rank = 3/5) ∧
      (lowerStr r.title ≠ normalizeQuery q →
         startTierB (normalizeQuery q) r.title = false →
         subTierB (normalizeQuery q) r.title = false →
         r.rank = similarity (lowerStr r.title) (normalizeQuery q) ∧
           similarity (lowerStr r.title) (normalizeQuery q) > 1/5) := by
    intro r hr
    obtain ⟨t, _, _, hm, _, hteq⟩ := mem_search_todos hr
    subst hteq
    simp only [searchRowOf]
    refine ⟨?_, ?_, ?_, ?_⟩
    · intro hexact
      rw [searchRank_of_exact hv hexact]
    · intro hne hstart
      rw [searchRank_of_start hv hne hstart, mkRat_four_fifths]
    · intro hne h1 h2
      rw [searchRank_of_sub hv hne h1 h2, mkRat_three_fifths]
    · intro hne h1 h2
      refine ⟨searchRank_of_fuzzy hv hne h1 h2, ?_⟩
      rw [← mkRat_one_fifth]
      exact sim_gt_of_match hv h2 hm
  refine ⟨?_, tiers, ?_, ?_, ?_⟩
  · intro r hr
    obtain ⟨t, _, _, _, _, hteq⟩ := mem_search_todos hr
    subst hteq
    rfl
  · intro t _ hsub hle
    exact searchMatch_false hv hsub (by rw [mkRat_one_fifth]; exact hle)
  · exact (List.sorted_insertionSort searchLe _).sublist
      ((List.take_sublist _ _).trans (List.drop_sublist _ _))
  · intro r1 hr1 r2 hr2
    have t1 := tiers r1 hr1
    have t2 := tiers r2 hr2
    refine ⟨?_, ?_, ?_⟩
    · intro hx1 hne2 hs2
      rw [t1.1 hx1, t2.2.1 hne2 hs2]
      norm_num
    · intro hne1 hs1 hne2 hns2 hsub2
      rw [t1.2.1 hne1 hs1, t2.2.2.1 hne2 hns2 hsub2]
      norm_num
    · intro hne1 hns1 hsub1 hne2 hns2 hnsub2 hsim
      rw [t1.2.2.1 hne1 hns1 hsub1, (t2.2.2.2 hne2 hns2 hnsub2).1]
      exact hsim

/-- Witness for C6 at the spec's own example: term `"buy milk"` over the
titles `"Buy milk"` (exact), `"Buy milk today"` (tier 0.8) and
`"I need to buy milk"` (tier 0.6). -/
theorem search_ranking_witness :
    SearchSpec [⟨1, 0, "Buy milk", false, none, 0, 0, 1⟩,
                ⟨2, 0, "Buy milk today", false, none, 5, 0, 1⟩,
                ⟨3, 0, "I need to buy milk", false, none, 9, 0, 1⟩]
      [] 0 (some "buy milk") none 10 0 :=
  search_ranking _ [] 0 (some "buy milk") none 10 0 (by decide)

end Memo
